import Mathlib

/-!
Verification of the idxdb query engine (src/index.ts): a shallow embedding of
the JavaScript values and of the query-builder code (`isRangeDescriptor`,
`createKeyRange`, `toKeyRange`, `QueryBuilder.where` / `execute`), plus the
pattern-matching predicate evaluator that the repository's tests exercise
(modelled from the specification, since that implementation generation is not
part of the sources).
-/

namespace Idxdb

/-- A JavaScript value, restricted to the shapes the query engine touches:
`null`, `undefined`, numbers (modelled as integers — the engine's keys and
record fields in schemas/tests are integral timestamps, ages and id strings),
strings, booleans, arrays and plain objects (ordered field lists, first
occurrence wins on lookup). -/
inductive JSValue where
  | null
  | undefined
  | num (n : Int)
  | str (s : String)
  | bool (b : Bool)
  | arr (elems : List JSValue)
  | obj (fields : List (String × JSValue))

/-- Property access `v[k]`: `undefined` on non-objects and missing keys. -/
def getProp (v : JSValue) (k : String) : JSValue :=
  match v with
  | .obj fields => (fields.lookup k).getD .undefined
  | _ => .undefined

/-- The JS `in` operator on plain objects: property presence (even when the
stored value is `undefined`). -/
def hasProp (v : JSValue) (k : String) : Bool :=
  match v with
  | .obj fields => fields.any (fun p => p.1 == k)
  | _ => false

/-- `typeof v` for the modelled values (note `typeof null = "object"`). -/
def jsTypeof (v : JSValue) : String :=
  match v with
  | .null => "object"
  | .undefined => "undefined"
  | .num _ => "number"
  | .str _ => "string"
  | .bool _ => "boolean"
  | .arr _ => "object"
  | .obj _ => "object"

def isNull (v : JSValue) : Bool :=
  match v with
  | .null => true
  | _ => false

def isUndef (v : JSValue) : Bool :=
  match v with
  | .undefined => true
  | _ => false

def isArr (v : JSValue) : Bool :=
  match v with
  | .arr _ => true
  | _ => false

/-- JS nullish test (`null` or `undefined`). -/
def isNullish (v : JSValue) : Bool :=
  match v with
  | .null => true
  | .undefined => true
  | _ => false

/-- The JS nullish-coalescing operator `a ?? b`. -/
def jsCoalesce (a b : JSValue) : JSValue :=
  if isNullish a then b else a

/-- JS truthiness, as applied by WebIDL boolean conversion of range flags. -/
def jsToBool (v : JSValue) : Bool :=
  match v with
  | .null => false
  | .undefined => false
  | .num n => n != 0
  | .str s => !s.isEmpty
  | .bool b => b
  | .arr _ => true
  | .obj _ => true

/-- SameValueZero, the equality used by JS `Set.has`.  Objects and arrays
compare by reference; since IndexedDB structured-clones every record it
returns, two separately fetched key objects are never reference-equal, so the
object/array case is modelled as `false`. -/
def sameValueZero (a b : JSValue) : Bool :=
  match a, b with
  | .null, .null => true
  | .undefined, .undefined => true
  | .num x, .num y => x == y
  | .str x, .str y => x == y
  | .bool x, .bool y => x == y
  | _, _ => false

/-- Integer comparison used for numeric IndexedDB keys. -/
def cmpInt (a b : Int) : Ordering :=
  if a < b then .lt else if b < a then .gt else .eq

/-- Code-point comparison of two characters. -/
def cmpChar (a b : Char) : Ordering :=
  if a < b then .lt else if b < a then .gt else .eq

/-- Lexicographic code-point comparison of character lists. -/
def cmpCharList : List Char → List Char → Ordering
  | [], [] => .eq
  | [], _ :: _ => .lt
  | _ :: _, [] => .gt
  | a :: as, b :: bs =>
    match cmpChar a b with
    | .eq => cmpCharList as bs
    | o => o

/-- Code-point lexicographic string comparison (the IndexedDB key order on
strings). -/
def cmpStr (a b : String) : Ordering :=
  cmpCharList a.data b.data

/-- A valid IndexedDB key in the modelled universe: the engine's schemas and
tests use string and numeric keys (array, date and binary keys are outside
the modelled scope). -/
def validKey (v : JSValue) : Bool :=
  match v with
  | .num _ => true
  | .str _ => true
  | _ => false

/-- IndexedDB key order on the modelled keys: numbers sort before strings,
numbers numerically, strings by code point.  Comparisons are only ever made
under `validKey` guards; the catch-all is arbitrary and never `.eq`. -/
def idbCompare (a b : JSValue) : Ordering :=
  match a, b with
  | .num x, .num y => cmpInt x y
  | .num _, .str _ => .lt
  | .str _, .num _ => .gt
  | .str x, .str y => cmpStr x y
  | _, _ => .gt

/-- Errors surfaced by the engine: `jsError msg` is a `throw new Error(msg)`
(the spec's `InvalidRange` errors are these), `notFoundError` is the
`NotFoundError` DOMException thrown by `store.index(name)` for a missing
index (the spec's `MissingIndex`), `dataError` is the `DataError` DOMException
for an invalid key, and `typeError` a JS `TypeError`. -/
inductive JsErr where
  | jsError (msg : String)
  | notFoundError
  | dataError
  | typeError

/-- An `IDBKeyRange`: optional bounds plus openness flags. -/
structure KeyRange where
  lower : Option JSValue
  upper : Option JSValue
  lowerOpen : Bool
  upperOpen : Bool

/-- The `KeyRangeOptions` argument of `createKeyRange`; `none` models an
absent/`undefined` field. -/
structure KeyRangeOptions where
  lower : Option JSValue
  upper : Option JSValue
  lowerOpen : Option Bool
  upperOpen : Option Bool
  single : Option JSValue

/-- `IDBKeyRange.only(v)` (DataError on an invalid key). -/
def idbOnly (v : JSValue) : Except JsErr KeyRange :=
  if validKey v then .ok ⟨some v, some v, false, false⟩ else .error .dataError

/-- `IDBKeyRange.bound(l, u, lo, uo)`: DataError on an invalid key, on
`l > u`, or on `l = u` with either end open. -/
def idbBound (l u : JSValue) (lo uo : Bool) : Except JsErr KeyRange :=
  if !validKey l || !validKey u then .error .dataError
  else
    match idbCompare l u with
    | .gt => .error .dataError
    | .eq => if lo || uo then .error .dataError else .ok ⟨some l, some u, lo, uo⟩
    | .lt => .ok ⟨some l, some u, lo, uo⟩

/-- `IDBKeyRange.lowerBound(l, open)` (unbounded above). -/
def idbLowerBound (l : JSValue) (lo : Bool) : Except JsErr KeyRange :=
  if validKey l then .ok ⟨some l, none, lo, true⟩ else .error .dataError

/-- `IDBKeyRange.upperBound(u, open)` (unbounded below). -/
def idbUpperBound (u : JSValue) (uo : Bool) : Except JsErr KeyRange :=
  if validKey u then .ok ⟨none, some u, true, uo⟩ else .error .dataError

/-- `createKeyRange` from src/index.ts: a `single` value gives an equality
range, otherwise the present bounds pick `bound` / `lowerBound` /
`upperBound`, and no bound at all throws. -/
def createKeyRange (options : KeyRangeOptions) : Except JsErr KeyRange :=
  if (match options.single with
      | some s => !isUndef s
      | none => false) then
    idbOnly (options.single.getD .undefined)
  else
    let lo := options.lowerOpen.getD false
    let uo := options.upperOpen.getD false
    match options.lower, options.upper with
    | some l, some u => idbBound l u lo uo
    | some l, none => idbLowerBound l lo
    | none, some u => idbUpperBound u uo
    | none, none =>
      .error (.jsError "createKeyRange requires at least one bound or a single value.")

/-- `isRangeDescriptor` from src/index.ts: a non-null value of typeof
"object" whose `between` property is an array or whose `gte`/`gt`/`lte`/`lt`
property is defined. -/
def isRangeDescriptor (value : JSValue) : Bool :=
  if isNull value then false
  else if jsTypeof value != "object" then false
  else
    isArr (getProp value "between") ||
    !isUndef (getProp value "gte") ||
    !isUndef (getProp value "gt") ||
    !isUndef (getProp value "lte") ||
    !isUndef (getProp value "lt")

/-- Wrap a possibly-`undefined` JS value as the optional field of
`KeyRangeOptions` (`undefined` means absent; `null` stays a value and later
fails key validation, as in the browser API). -/
def optOfJS (v : JSValue) : Option JSValue :=
  match v with
  | .undefined => none
  | _ => some v

/-- `toKeyRange` from src/index.ts.  A present `between` property is
destructured as `[lower, upper]` (non-array values of `between` raise a
TypeError when destructured; the iterable-string corner is outside the
modelled scope).  Otherwise `gt`/`gte` and `lt`/`lte` are checked for
double-bounding, coalesced into bounds, and at least one bound is required. -/
def toKeyRange (descriptor : JSValue) : Except JsErr KeyRange :=
  if hasProp descriptor "between" then
    match getProp descriptor "between" with
    | .arr elems =>
      let lower := elems.getD 0 .undefined
      let upper := elems.getD 1 .undefined
      createKeyRange
        ⟨optOfJS lower, optOfJS upper,
         some (jsToBool (jsCoalesce (getProp descriptor "lowerOpen") (.bool false))),
         some (jsToBool (jsCoalesce (getProp descriptor "upperOpen") (.bool false))),
         none⟩
    | _ => .error .typeError
  else
    let hasGt := !isUndef (getProp descriptor "gt")
    let hasGte := !isUndef (getProp descriptor "gte")
    let hasLt := !isUndef (getProp descriptor "lt")
    let hasLte := !isUndef (getProp descriptor "lte")
    if hasGt && hasGte then
      .error (.jsError "Specify only one of `gt` or `gte` for a range.")
    else if hasLt && hasLte then
      .error (.jsError "Specify only one of `lt` or `lte` for a range.")
    else
      let lower := jsCoalesce (getProp descriptor "gt") (getProp descriptor "gte")
      let upper := jsCoalesce (getProp descriptor "lt") (getProp descriptor "lte")
      if isUndef lower && isUndef upper then
        .error (.jsError "A range descriptor requires at least one boundary.")
      else
        createKeyRange ⟨optOfJS lower, optOfJS upper, some hasGt, some hasLt, none⟩

mutual

/-- JS `String(v)` for the modelled values (arrays join their elements'
strings with commas, plain objects print as `[object Object]`). -/
def jsToString : JSValue → String
  | .null => "null"
  | .undefined => "undefined"
  | .num n => toString n
  | .str s => s
  | .bool b => if b then "true" else "false"
  | .arr elems => arrJoin elems
  | .obj _ => "[object Object]"

/-- Comma-join of an array's stringified elements (JS `Array.prototype.join`). -/
def arrJoin : List JSValue → String
  | [] => ""
  | [x] => jsToString x
  | x :: xs => jsToString x ++ "," ++ arrJoin xs

end

/-- Split a pattern's character list at the `%` wildcard markers. -/
def splitSegs : List Char → List (List Char)
  | [] => [[]]
  | '%' :: rest => [] :: splitSegs rest
  | c :: rest =>
    match splitSegs rest with
    | [] => [[c]]
    | seg :: segs => (c :: seg) :: segs

/-- Drop everything up to and including the first occurrence of `needle`,
returning the remaining suffix (or `none` when `needle` never occurs). -/
def findStrip (needle : List Char) : List Char → Option (List Char)
  | [] => if needle.isEmpty then some [] else none
  | c :: rest =>
    if needle.isPrefixOf (c :: rest) then some ((c :: rest).drop needle.length)
    else findStrip needle rest

/-- Match the segments that follow a `%` marker: every middle segment must
occur in order, and the final segment must end the string (an empty final
segment corresponds to a trailing `%` and matches any tail). -/
def tailSegsMatch : List (List Char) → List Char → Bool
  | [], s => s.isEmpty
  | [last], s => last.isSuffixOf s
  | seg :: rest, s =>
    match findStrip seg s with
    | none => false
    | some s' => tailSegsMatch rest s'

/-- Modelled from the spec (4.2 Pattern Matcher; the implementation
generation holding the pattern code is absent from src/, only its tests
remain): the wildcard marker `%` matches any run of zero or more characters,
and exactly the positions described by the literal pattern are significant —
the leading segment is anchored at the start, the trailing segment at the
end, and the segments between wildcards float in order. -/
def likeMatchL (pat s : List Char) : Bool :=
  match splitSegs pat with
  | [] => false
  | first :: rest =>
    first.isPrefixOf s && tailSegsMatch rest (s.drop first.length)

/-- Modelled from the spec (4.2): compile a pattern with optional case
folding — when `caseInsensitive` is true both pattern and candidate are
normalized to lower case before comparison. -/
def likeMatches (pat : String) (caseInsensitive : Bool) (s : String) : Bool :=
  if caseInsensitive then
    likeMatchL (pat.data.map Char.toLower) (s.data.map Char.toLower)
  else
    likeMatchL pat.data s.data

/-- Modelled from the spec (3 Data Model, PatternDescriptor; field name
`like` as in the repository's tests): a pattern operand is a plain object
whose `like` property is a string. -/
def isPatternDescriptor (value : JSValue) : Bool :=
  match value with
  | .obj _ =>
    match getProp value "like" with
    | .str _ => true
    | _ => false
  | _ => false

/-- The pattern string of a pattern descriptor. -/
def likeOf (value : JSValue) : String :=
  match getProp value "like" with
  | .str p => p
  | _ => ""

/-- Does a key fall inside an `IDBKeyRange`? -/
def inRange (kr : KeyRange) (k : JSValue) : Bool :=
  (match kr.lower with
   | none => true
   | some l =>
     match idbCompare l k with
     | .lt => true
     | .eq => !kr.lowerOpen
     | .gt => false) &&
  (match kr.upper with
   | none => true
   | some u =>
     match idbCompare k u with
     | .lt => true
     | .eq => !kr.upperOpen
     | .gt => false)

/-- The unbounded key range (what `getAll(null)` / `getAll(undefined)` scan). -/
def unboundedRange : KeyRange := ⟨none, none, false, false⟩

/-- The degenerate equality range for a literal key (`IDBKeyRange.only`). -/
def onlyRange (v : JSValue) : KeyRange := ⟨some v, some v, false, false⟩

/-- A backing object store: records (plain objects) in primary-key order,
the names of the secondary indexes declared by the schema, and the primary
`keyPath`. -/
structure Store where
  table : List JSValue
  indexes : List String
  keyPath : String

/-- Stable insertion (by IndexedDB key order on field `f`) used to present an
index scan in index order: a record moves past strictly smaller keys only, so
ties keep table (primary-key) order. -/
def insertByKey (f : String) (r : JSValue) : List JSValue → List JSValue
  | [] => [r]
  | x :: xs =>
    match idbCompare (getProp x f) (getProp r f) with
    | .lt => x :: insertByKey f r xs
    | _ => r :: x :: xs

/-- Sort records by the IndexedDB key order of field `f` (stable). -/
def sortByKey (f : String) : List JSValue → List JSValue
  | [] => []
  | x :: xs => insertByKey f x (sortByKey f xs)

/-- `index.getAll(range)`: the records whose `f` field is a valid key inside
the range, in index order (key order, ties by table position). -/
def indexScanRange (store : Store) (f : String) (kr : KeyRange) : List JSValue :=
  sortByKey f (store.table.filter (fun r => validKey (getProp r f) && inRange kr (getProp r f)))

/-- One accumulated `where` filter: the index name and the raw operand. -/
structure Filter where
  indexName : String
  value : JSValue

/-- A `QueryBuilder`'s accumulated state: filters, pagination values
(`none` models an unset JS field) and the optional sort configuration. -/
inductive Dir where
  | next
  | prev

structure SortCfg where
  key : String
  direction : Dir

structure Query where
  filters : List Filter
  offsetValue : Option Nat
  limitValue : Option Nat
  sortConfig : Option SortCfg

/-- Resolve one `where` filter against the store, also reporting which store
reads were issued (the index name, or `"table"` for a full-table scan).
Mirrors the filter closure pushed by `QueryBuilder.where`: pattern operands
(modelled from the spec, code generation absent from src/) full-scan the
table through the compiled predicate; otherwise `store.index(name)` is
looked up first (NotFoundError on a missing index), a range descriptor is
translated by `toKeyRange` before any read, and any other operand is handed
to `index.getAll` untranslated — which per the IndexedDB API treats
`null`/`undefined` as an unbounded scan, a valid key as an equality lookup
and anything else as a DataError. -/
def resolveFilterR (store : Store) (flt : Filter) :
    List String × Except JsErr (List JSValue) :=
  if isPatternDescriptor flt.value then
    (["table"],
     .ok (store.table.filter (fun r =>
       likeMatches (likeOf flt.value) (jsToBool (getProp flt.value "caseInsensitive"))
         (jsToString (getProp r flt.indexName)))))
  else if !(store.indexes.contains flt.indexName) then
    ([], .error .notFoundError)
  else if isRangeDescriptor flt.value then
    match toKeyRange flt.value with
    | .error e => ([], .error e)
    | .ok kr => ([flt.indexName], .ok (indexScanRange store flt.indexName kr))
  else if isNullish flt.value then
    ([flt.indexName], .ok (indexScanRange store flt.indexName unboundedRange))
  else if validKey flt.value then
    ([flt.indexName], .ok (indexScanRange store flt.indexName (onlyRange flt.value)))
  else
    ([], .error .dataError)

/-- The result list of one filter (reads discarded). -/
def resolveFilter (store : Store) (flt : Filter) : Except JsErr (List JSValue) :=
  (resolveFilterR store flt).2

/-- The intersection step of `QueryBuilder.execute`: keep the accumulated
records whose primary key (under SameValueZero, as a JS `Set` compares)
appears among the new filter results' keys. -/
def intersectStep (kp : String) (results filterResults : List JSValue) : List JSValue :=
  let filterKeys := filterResults.map (fun item => getProp item kp)
  results.filter (fun item => filterKeys.any (fun k => sameValueZero k (getProp item kp)))

/-- The filter loop of `QueryBuilder.execute`: filters run sequentially; an
empty accumulator is (re)seeded from the next filter's results — this is the
`results.length === 0` check of the source — and otherwise the accumulator is
intersected by primary-key identity.  Reads of all executed filters are
collected; the first error aborts the loop. -/
def runFiltersR (store : Store) (kp : String) :
    List Filter → List JSValue → List String × Except JsErr (List JSValue)
  | [], results => ([], .ok results)
  | flt :: rest, results =>
    match resolveFilterR store flt with
    | (reads, .error e) => (reads, .error e)
    | (reads, .ok filterResults) =>
      let next := if results.length = 0 then filterResults
                  else intersectStep kp results filterResults
      let out := runFiltersR store kp rest next
      (reads ++ out.1, out.2)

/-- JS truthiness of the optional numeric builder fields (`undefined` and
`0` are falsy). -/
def truthyNat (o : Option Nat) : Bool :=
  match o with
  | none => false
  | some n => n != 0

/-- The pagination tail of `QueryBuilder.execute`: applied only when
`offsetValue || limitValue` is truthy; `start` is `offsetValue || 0` and the
slice end is `start + limitValue` when `limitValue` is truthy, else
unbounded. -/
def applyPagination (off lim : Option Nat) (results : List JSValue) : List JSValue :=
  if truthyNat off || truthyNat lim then
    let start := match off with
      | some n => n
      | none => 0
    if truthyNat lim then (results.drop start).take (lim.getD 0)
    else results.drop start
  else results

/-- The sort comparator of `QueryBuilder.execute`, parameterized by the
host's `String.prototype.localeCompare` (written `lc`), whose ordering is
locale- and implementation-dependent: two numeric field values compare by
arithmetic difference, anything else is stringified and handed to `lc`;
direction `prev` negates the comparison. -/
def comparator (lc : String → String → Int) (cfg : SortCfg) (a b : JSValue) : Int :=
  let aVal := getProp a cfg.key
  let bVal := getProp b cfg.key
  let comparison :=
    match aVal, bVal with
    | .num x, .num y => x - y
    | _, _ => lc (jsToString aVal) (jsToString bVal)
  match cfg.direction with
  | .next => comparison
  | .prev => -comparison

/-- The comparator the spec describes instead for the string branch:
stringify and compare in code-point / locale-independent ordinal order. -/
def ordCompare (a b : String) : Int :=
  match cmpStr a b with
  | .lt => -1
  | .eq => 0
  | .gt => 1

/-- Stable insertion sort by a JS comparator (JS `Array.prototype.sort` is
stable; an element moves past another only when the comparator orders it
strictly earlier). -/
def insertCmp (cmp : JSValue → JSValue → Int) (a : JSValue) :
    List JSValue → List JSValue
  | [] => [a]
  | x :: xs => if cmp x a < 0 then x :: insertCmp cmp a xs else a :: x :: xs

def sortCmp (cmp : JSValue → JSValue → Int) : List JSValue → List JSValue
  | [] => []
  | x :: xs => insertCmp cmp x (sortCmp cmp xs)

/-- `QueryBuilder.execute`, with the issued store reads reported: no filters
means a full `store.getAll()`; otherwise the filter loop runs; then the sort
(when configured) and the pagination tail are applied to the surviving
records.  `lc` abstracts the host's `localeCompare`. -/
def executeR (lc : String → String → Int) (store : Store) (q : Query) :
    List String × Except JsErr (List JSValue) :=
  let base :=
    if q.filters.length = 0 then (["table"], .ok store.table)
    else runFiltersR store store.keyPath q.filters []
  match base with
  | (reads, .error e) => (reads, .error e)
  | (reads, .ok results) =>
    let sorted :=
      match q.sortConfig with
      | none => results
      | some cfg => sortCmp (comparator lc cfg) results
    (reads, .ok (applyPagination q.offsetValue q.limitValue sorted))

/-- `QueryBuilder.execute`'s observable result. -/
def execute (lc : String → String → Int) (store : Store) (q : Query) :
    Except JsErr (List JSValue) :=
  (executeR lc store q).2

/-! Concrete fixtures used by counterexamples and witnesses. -/

/-- A concrete stand-in for the host's `localeCompare`, used where a closed
statement needs some `lc` but never sorts strings. -/
def lc0 : String → String → Int := fun _ _ => 0

def userKim : JSValue :=
  .obj [("id", .str "1"), ("name", .str "Kim"), ("status", .str "active")]

def storeKim : Store := ⟨[userKim], ["name", "status"], "id"⟩

def userLee : JSValue :=
  .obj [("id", .str "1"), ("name", .str "Lee"), ("createdAt", .num 5)]

def storeLee : Store := ⟨[userLee], ["name", "createdAt"], "id"⟩

def userHannah : JSValue :=
  .obj [("id", .str "1"), ("name", .str "Hannah"), ("age", .num 29)]

def userJane : JSValue :=
  .obj [("id", .str "2"), ("name", .str "Jane"), ("age", .num 32)]

def userMike : JSValue :=
  .obj [("id", .str "3"), ("name", .str "Mike"), ("age", .num 31)]

def storeHJM : Store := ⟨[userHannah, userJane, userMike], ["name"], "id"⟩

def userX : JSValue := .obj [("id", .str "1"), ("name", .str "x")]

def storeX : Store := ⟨[userX], ["name"], "id"⟩

def userA10 : JSValue :=
  .obj [("id", .str "1"), ("name", .str "Lee"), ("status", .str "idle")]

def userB10 : JSValue :=
  .obj [("id", .str "2"), ("name", .str "Kim"), ("status", .str "active")]

def store10 : Store := ⟨[userA10, userB10], ["name", "status"], "id"⟩

/-- Records used to witness the locale divergence of the sort comparator. -/
def userLowerA : JSValue := .obj [("id", .str "1"), ("name", .str "a")]

def userUpperB : JSValue := .obj [("id", .str "2"), ("name", .str "B")]

/-- A locale comparison placing "a" before "B", as the default ICU collation
of JS hosts does. -/
def lcNeg : String → String → Int := fun _ _ => -1

/-- Is an engine result a success? -/
def isOk {α : Type} (r : Except JsErr α) : Bool :=
  match r with
  | .ok _ => true
  | .error _ => false

/-- The running intersection never becomes empty while later predicates
remain: under this condition the `results.length === 0` branch of the filter
loop can never re-seed the accumulator after the first predicate. -/
def noReseed (store : Store) (kp : String) : List Filter → List JSValue → Bool
  | [], _ => true
  | flt :: rest, acc =>
    !acc.isEmpty &&
    (match resolveFilter store flt with
     | .ok fr => noReseed store kp rest (intersectStep kp acc fr)
     | .error _ => true)

/-- Definition following the claim's words (C9): the operand shape said to
be dispatched to a range scan — a non-null value of object type that has an
array-valued `between` field or at least one defined field among
`gte`, `gt`, `lte`, `lt`. -/
def rangeShapeSpec (v : JSValue) : Bool :=
  (!isNull v && (jsTypeof v == "object")) &&
  (isArr (getProp v "between") ||
   !isUndef (getProp v "gte") ||
   !isUndef (getProp v "gt") ||
   !isUndef (getProp v "lte") ||
   !isUndef (getProp v "lt"))

/-! Helper lemmas. -/

/-- A filter that fails issued no store read: the missing-index lookup, the
range translation and the key validation all precede the `getAll` call. -/
lemma resolveFilterR_error_reads (store : Store) (flt : Filter) (e : JsErr)
    (h : (resolveFilterR store flt).2 = .error e) :
    (resolveFilterR store flt).1 = [] := by
  unfold resolveFilterR at h ⊢
  split_ifs at h ⊢
  all_goals first
  | rfl
  | simp at h
  | (split at h <;> simp_all)

/-- The filter loop on a chain whose prefix succeeds and whose next filter
fails: the loop aborts with that error having issued exactly the prefix's
reads. -/
lemma runFiltersR_error (store : Store) (kp : String) (flt : Filter)
    (fs₂ : List Filter) (e : JsErr)
    (hflt : resolveFilter store flt = .error e) :
    ∀ (fs₁ : List Filter) (acc : List JSValue),
      fs₁.all (fun g => isOk (resolveFilter store g)) = true →
      runFiltersR store kp (fs₁ ++ flt :: fs₂) acc =
        (fs₁.flatMap (fun g => (resolveFilterR store g).1), .error e) := by
  intro fs₁
  induction fs₁ with
  | nil =>
    intro acc _
    have hflt' : (resolveFilterR store flt).2 = .error e := hflt
    have hrd := resolveFilterR_error_reads store flt e hflt'
    have hpair : resolveFilterR store flt = ([], .error e) := by
      rw [← hrd, ← hflt']
    simp only [List.nil_append, runFiltersR, hpair, List.flatMap_nil]
  | cons g gs ih =>
    intro acc hall
    simp only [List.all_cons, Bool.and_eq_true] at hall
    obtain ⟨hg, hgs⟩ := hall
    obtain ⟨l, hl⟩ : ∃ l, (resolveFilterR store g).2 = .ok l := by
      unfold isOk resolveFilter at hg
      split at hg
      · rename_i l hl
        exact ⟨l, hl⟩
      · simp at hg
    have hpair : resolveFilterR store g = ((resolveFilterR store g).1, .ok l) := by
      rw [← hl]
    rw [List.cons_append]
    simp only [runFiltersR]
    rw [hpair]
    simp only [ih _ hgs, List.flatMap_cons]

/-! Claim theorems. -/

/-- C1: the intersection law fails on the code — when the first predicate's
candidate set is empty, the `results.length === 0` branch re-seeds the
accumulator from the second predicate, so `.where("name","Lee")
.where("status","active")` over a table whose only record is named Kim
returns that record, which is not in the (empty) result of
`.where("name","Lee")` alone.  The claim (and the spec's intersection law)
is the clear intent of chained `where`; the empty-accumulator sentinel in
`QueryBuilder.execute` conflates "not yet seeded" with "empty
intersection". -/
theorem c1_intersection_violated :
    execute lc0 storeKim
        ⟨[⟨"name", .str "Lee"⟩, ⟨"status", .str "active"⟩], none, none, none⟩ =
      .ok [userKim] ∧
    execute lc0 storeKim ⟨[⟨"name", .str "Lee"⟩], none, none, none⟩ = .ok [] ∧
    userKim ∉ ([] : List JSValue) :=
  ⟨rfl, rfl, by simp⟩

/-- C2 counterexample: with `offset(0).limit(0)` the pagination guard
`offsetValue || limitValue` is falsy, so no slicing happens and the full
result is returned, while the manual slice `[0, 0+0)` of the unpaginated
result is empty. -/
theorem c2_counterexample :
    execute lc0 storeKim ⟨[], some 0, some 0, none⟩ = .ok [userKim] ∧
    execute lc0 storeKim ⟨[], none, none, none⟩ = .ok [userKim] ∧
    ([userKim].drop 0).take 0 = ([] : List JSValue) ∧
    [userKim] ≠ ([] : List JSValue) :=
  ⟨rfl, rfl, rfl, by simp⟩

/-- C2 amended: for every non-negative offset and every POSITIVE limit,
executing with `.offset(offset).limit(limit)` equals executing without
pagination and slicing `[offset, offset+limit)`; a limit of 0 is treated by
the code as unset (JS falsiness) and is excluded. -/
theorem c2_pagination_amended (lc : String → String → Int) (store : Store)
    (fs : List Filter) (sc : Option SortCfg) (off lim : Nat) (h : 1 ≤ lim) :
    execute lc store ⟨fs, some off, some lim, sc⟩ =
      (execute lc store ⟨fs, none, none, sc⟩).map (fun rs => (rs.drop off).take lim) := by
  have hlim : (lim != 0) = true := by
    simp only [bne_iff_ne, ne_eq]
    omega
  simp only [execute, executeR]
  rcases hres : (if fs.length = 0 then (["table"], Except.ok (ε := JsErr) store.table)
      else runFiltersR store store.keyPath fs []) with ⟨reads, res⟩
  cases res with
  | error e => simp [Except.map]
  | ok results => simp [Except.map, applyPagination, truthyNat, hlim]

/-- C2 amended, witness at offset 1, limit 1 over the one-record store. -/
theorem c2_pagination_amended_witness :
    1 ≤ 1 ∧
    execute lc0 storeKim ⟨[], some 1, some 1, none⟩ =
      (execute lc0 storeKim ⟨[], none, none, none⟩).map (fun rs => (rs.drop 1).take 1) :=
  ⟨Nat.le_refl 1, c2_pagination_amended lc0 storeKim [] none 1 1 (Nat.le_refl 1)⟩

/-- C3 counterexample: in the chain `.where("name","Lee")
.where("createdAt",{gt:1,gte:1})` the invalid range is only discovered while
`execute` runs the second filter, after the first filter has already read
the `name` index — so a store read IS performed for a predicate of a query
containing an invalid predicate, contradicting the claim's "no store read is
performed for any predicate". -/
theorem c3_counterexample :
    executeR lc0 storeLee
        ⟨[⟨"name", .str "Lee"⟩,
          ⟨"createdAt", .obj [("gt", .num 1), ("gte", .num 1)]⟩], none, none, none⟩ =
      (["name"], .error (.jsError "Specify only one of `gt` or `gte` for a range.")) ∧
    (["name"] : List String) ≠ [] :=
  ⟨rfl, by simp⟩

/-- C3 amended: `InvalidRange` / `MissingIndex` are detected while `execute`
resolves the offending predicate, before that predicate's own store read;
the whole query then fails with that error (no partial results) and no later
predicate is resolved — but the store reads of the predicates earlier in the
chain have already been issued. -/
theorem c3_amended (lc : String → String → Int) (store : Store)
    (fs₁ : List Filter) (flt : Filter) (fs₂ : List Filter) (e : JsErr)
    (off lim : Option Nat) (sc : Option SortCfg)
    (h₁ : fs₁.all (fun g => isOk (resolveFilter store g)) = true)
    (h₂ : resolveFilter store flt = .error e) :
    executeR lc store ⟨fs₁ ++ flt :: fs₂, off, lim, sc⟩ =
      (fs₁.flatMap (fun g => (resolveFilterR store g).1), .error e) := by
  have hlen : ¬(fs₁ ++ flt :: fs₂).length = 0 := by
    simp
  simp only [executeR]
  rw [if_neg hlen, runFiltersR_error store store.keyPath flt fs₂ e h₂ fs₁ [] h₁]

/-- C3 amended, witness: the concrete chain of the counterexample. -/
theorem c3_amended_witness :
    [(⟨"name", .str "Lee"⟩ : Filter)].all
        (fun g => isOk (resolveFilter storeLee g)) = true ∧
    resolveFilter storeLee ⟨"createdAt", .obj [("gt", .num 1), ("gte", .num 1)]⟩ =
      .error (.jsError "Specify only one of `gt` or `gte` for a range.") ∧
    executeR lc0 storeLee
        ⟨[⟨"name", .str "Lee"⟩] ++
          [⟨"createdAt", .obj [("gt", .num 1), ("gte", .num 1)]⟩], none, none, none⟩ =
      ([(⟨"name", .str "Lee"⟩ : Filter)].flatMap
         (fun g => (resolveFilterR storeLee g).1),
       .error (.jsError "Specify only one of `gt` or `gte` for a range.")) :=
  ⟨rfl, rfl,
   c3_amended lc0 storeLee [⟨"name", .str "Lee"⟩]
     ⟨"createdAt", .obj [("gt", .num 1), ("gte", .num 1)]⟩ [] _ none none none rfl rfl⟩

/-- C4 (predicate evaluator modelled from the spec, its implementation
generation being absent from src/): a where-predicate whose operand is a
pattern descriptor is evaluated by a full-table scan filtered through the
compiled wildcard predicate; over {Hannah, Jane, Mike} the pattern `%an%`
returns exactly Hannah and Jane. -/
theorem c4_pattern_scan :
    (∀ (store : Store) (f p : String) (ci : Bool),
      resolveFilterR store ⟨f, .obj [("like", .str p), ("caseInsensitive", .bool ci)]⟩ =
        (["table"],
         .ok (store.table.filter (fun r => likeMatches p ci (jsToString (getProp r f)))))) ∧
    execute lc0 storeHJM
        ⟨[⟨"name", .obj [("like", .str "%an%")]⟩], none, none, none⟩ =
      .ok [userHannah, userJane] :=
  ⟨fun _ _ _ _ => rfl, rfl⟩

/-- C5: the claim says strings compare in code-point / locale-independent
ordinal order, but `QueryBuilder.execute` delegates the string branch to
`String.prototype.localeCompare`, which is locale-sensitive: on any host
whose collation places "a" before "B" (the default ICU behavior), the code's
comparator orders the record named "a" first, while the ordinal comparator
the claim describes orders "B" first. -/
theorem c5_locale_divergence (lc : String → String → Int) (h : lc "a" "B" < 0) :
    comparator lc ⟨"name", .next⟩ userLowerA userUpperB < 0 ∧
    comparator ordCompare ⟨"name", .next⟩ userLowerA userUpperB = 1 ∧
    comparator ordCompare ⟨"name", .next⟩ userUpperB userLowerA = -1 :=
  ⟨h, rfl, rfl⟩

/-- C5 witness: instantiating the host collation with one placing "a" before
"B". -/
theorem c5_locale_divergence_witness :
    lcNeg "a" "B" < 0 ∧
    (comparator lcNeg ⟨"name", .next⟩ userLowerA userUpperB < 0 ∧
     comparator ordCompare ⟨"name", .next⟩ userLowerA userUpperB = 1 ∧
     comparator ordCompare ⟨"name", .next⟩ userUpperB userLowerA = -1) :=
  ⟨by decide, c5_locale_divergence lcNeg (by decide)⟩

/-- C7: a where-operand giving both `gt` and `gte` always fails the query
with the `InvalidRange` error thrown by `toKeyRange` (the query yields no
records, only the error), and a range descriptor with no bound at all fails
`toKeyRange` with the no-boundary `InvalidRange` error. -/
theorem c7_invalid_range (lc : String → String → Int) (store : Store)
    (f : String) (a d : JSValue)
    (hf : store.indexes.contains f = true)
    (ha : validKey a = true)
    (hd0 : hasProp d "between" = false)
    (hd1 : getProp d "gt" = .undefined)
    (hd2 : getProp d "gte" = .undefined)
    (hd3 : getProp d "lt" = .undefined)
    (hd4 : getProp d "lte" = .undefined) :
    execute lc store ⟨[⟨f, .obj [("gt", a), ("gte", a)]⟩], none, none, none⟩ =
      .error (.jsError "Specify only one of `gt` or `gte` for a range.") ∧
    toKeyRange d =
      .error (.jsError "A range descriptor requires at least one boundary.") := by
  constructor
  · have hf' : f ∈ store.indexes := by
      simpa using hf
    cases a with
    | num n => simp [execute, executeR, runFiltersR, resolveFilterR, hf',
        isPatternDescriptor, getProp, List.lookup, List.any,
        isRangeDescriptor, isNull, jsTypeof, isUndef, toKeyRange, hasProp]
    | str s => simp [execute, executeR, runFiltersR, resolveFilterR, hf',
        isPatternDescriptor, getProp, List.lookup, List.any,
        isRangeDescriptor, isNull, jsTypeof, isUndef, toKeyRange, hasProp]
    | null => simp [validKey] at ha
    | undefined => simp [validKey] at ha
    | bool b => simp [validKey] at ha
    | arr xs => simp [validKey] at ha
    | obj fs => simp [validKey] at ha
  · unfold toKeyRange
    rw [hd0]
    simp [hd1, hd2, hd3, hd4, isUndef, jsCoalesce, isNullish]

/-- C7 witness: the key 1 and the empty-object descriptor. -/
theorem c7_invalid_range_witness :
    storeLee.indexes.contains "name" = true ∧
    validKey (.num 1) = true ∧
    hasProp (.obj []) "between" = false ∧
    getProp (.obj []) "gt" = .undefined ∧
    (execute lc0 storeLee
        ⟨[⟨"name", .obj [("gt", .num 1), ("gte", .num 1)]⟩], none, none, none⟩ =
      .error (.jsError "Specify only one of `gt` or `gte` for a range.") ∧
    toKeyRange (.obj []) =
      .error (.jsError "A range descriptor requires at least one boundary.")) :=
  ⟨rfl, rfl, rfl, rfl,
   c7_invalid_range lc0 storeLee "name" (.num 1) (.obj []) rfl rfl rfl rfl rfl rfl rfl⟩

/-- C6: for all keys a < b the descriptor `{gte: a, lt: b}` and the
descriptor `{between: [a,b], lowerOpen: false, upperOpen: true}` translate
to the same bounded interval — lower bound a inclusive, upper bound b
exclusive — and a query using either descriptor produces the same result. -/
theorem c6_range_forms_equivalent (lc : String → String → Int) (store : Store)
    (f : String) (a b : JSValue)
    (ha : validKey a = true) (hb : validKey b = true)
    (hab : idbCompare a b = .lt) :
    toKeyRange (.obj [("gte", a), ("lt", b)]) = .ok ⟨some a, some b, false, true⟩ ∧
    toKeyRange (.obj [("between", .arr [a, b]), ("lowerOpen", .bool false),
        ("upperOpen", .bool true)]) = .ok ⟨some a, some b, false, true⟩ ∧
    execute lc store ⟨[⟨f, .obj [("gte", a), ("lt", b)]⟩], none, none, none⟩ =
      execute lc store ⟨[⟨f, .obj [("between", .arr [a, b]), ("lowerOpen", .bool false),
        ("upperOpen", .bool true)]⟩], none, none, none⟩ := by
  cases a with
  | num n =>
    cases b with
    | num m =>
      have hab' : cmpInt n m = .lt := hab
      have h1 : toKeyRange (.obj [("gte", .num n), ("lt", .num m)]) =
          .ok ⟨some (.num n), some (.num m), false, true⟩ := by
        simp [toKeyRange, createKeyRange, idbBound, hasProp, List.any, getProp,
          List.lookup, isUndef, jsCoalesce, isNullish, optOfJS, jsToBool,
          validKey, idbCompare, hab']
      have h2 : toKeyRange (.obj [("between", .arr [.num n, .num m]),
          ("lowerOpen", .bool false), ("upperOpen", .bool true)]) =
          .ok ⟨some (.num n), some (.num m), false, true⟩ := by
        simp [toKeyRange, createKeyRange, idbBound, hasProp, List.any, getProp,
          List.lookup, List.getD, isUndef, jsCoalesce, isNullish, optOfJS,
          jsToBool, validKey, idbCompare, hab']
      refine ⟨h1, h2, ?_⟩
      have hres : resolveFilterR store ⟨f, .obj [("gte", .num n), ("lt", .num m)]⟩ =
          resolveFilterR store ⟨f, .obj [("between", .arr [.num n, .num m]),
            ("lowerOpen", .bool false), ("upperOpen", .bool true)]⟩ := by
        simp [resolveFilterR, isPatternDescriptor, getProp, List.lookup,
          isRangeDescriptor, isNull, jsTypeof, isUndef, isArr, h1, h2]
      simp [execute, executeR, runFiltersR, hres]
    | str t =>
      have h1 : toKeyRange (.obj [("gte", .num n), ("lt", .str t)]) =
          .ok ⟨some (.num n), some (.str t), false, true⟩ := by
        simp [toKeyRange, createKeyRange, idbBound, hasProp, List.any, getProp,
          List.lookup, isUndef, jsCoalesce, isNullish, optOfJS, jsToBool,
          validKey, idbCompare]
      have h2 : toKeyRange (.obj [("between", .arr [.num n, .str t]),
          ("lowerOpen", .bool false), ("upperOpen", .bool true)]) =
          .ok ⟨some (.num n), some (.str t), false, true⟩ := by
        simp [toKeyRange, createKeyRange, idbBound, hasProp, List.any, getProp,
          List.lookup, List.getD, isUndef, jsCoalesce, isNullish, optOfJS,
          jsToBool, validKey, idbCompare]
      refine ⟨h1, h2, ?_⟩
      have hres : resolveFilterR store ⟨f, .obj [("gte", .num n), ("lt", .str t)]⟩ =
          resolveFilterR store ⟨f, .obj [("between", .arr [.num n, .str t]),
            ("lowerOpen", .bool false), ("upperOpen", .bool true)]⟩ := by
        simp [resolveFilterR, isPatternDescriptor, getProp, List.lookup,
          isRangeDescriptor, isNull, jsTypeof, isUndef, isArr, h1, h2]
      simp [execute, executeR, runFiltersR, hres]
    | null => simp [validKey] at hb
    | undefined => simp [validKey] at hb
    | bool x => simp [validKey] at hb
    | arr xs => simp [validKey] at hb
    | obj fs => simp [validKey] at hb
  | str s =>
    cases b with
    | num m => simp [idbCompare] at hab
    | str t =>
      have hab' : cmpStr s t = .lt := hab
      have h1 : toKeyRange (.obj [("gte", .str s), ("lt", .str t)]) =
          .ok ⟨some (.str s), some (.str t), false, true⟩ := by
        simp [toKeyRange, createKeyRange, idbBound, hasProp, List.any, getProp,
          List.lookup, isUndef, jsCoalesce, isNullish, optOfJS, jsToBool,
          validKey, idbCompare, hab']
      have h2 : toKeyRange (.obj [("between", .arr [.str s, .str t]),
          ("lowerOpen", .bool false), ("upperOpen", .bool true)]) =
          .ok ⟨some (.str s), some (.str t), false, true⟩ := by
        simp [toKeyRange, createKeyRange, idbBound, hasProp, List.any, getProp,
          List.lookup, List.getD, isUndef, jsCoalesce, isNullish, optOfJS,
          jsToBool, validKey, idbCompare, hab']
      refine ⟨h1, h2, ?_⟩
      have hres : resolveFilterR store ⟨f, .obj [("gte", .str s), ("lt", .str t)]⟩ =
          resolveFilterR store ⟨f, .obj [("between", .arr [.str s, .str t]),
            ("lowerOpen", .bool false), ("upperOpen", .bool true)]⟩ := by
        simp [resolveFilterR, isPatternDescriptor, getProp, List.lookup,
          isRangeDescriptor, isNull, jsTypeof, isUndef, isArr, h1, h2]
      simp [execute, executeR, runFiltersR, hres]
    | null => simp [validKey] at hb
    | undefined => simp [validKey] at hb
    | bool x => simp [validKey] at hb
    | arr xs => simp [validKey] at hb
    | obj fs => simp [validKey] at hb
  | null => simp [validKey] at ha
  | undefined => simp [validKey] at ha
  | bool x => simp [validKey] at ha
  | arr xs => simp [validKey] at ha
  | obj fs => simp [validKey] at ha

/-- C6 witness at the numeric keys 1 < 2 over the timestamp-indexed store. -/
theorem c6_range_forms_equivalent_witness :
    validKey (.num 1) = true ∧ validKey (.num 2) = true ∧
    idbCompare (.num 1) (.num 2) = .lt ∧
    (toKeyRange (.obj [("gte", .num 1), ("lt", .num 2)]) =
        .ok ⟨some (.num 1), some (.num 2), false, true⟩ ∧
     toKeyRange (.obj [("between", .arr [.num 1, .num 2]), ("lowerOpen", .bool false),
        ("upperOpen", .bool true)]) =
        .ok ⟨some (.num 1), some (.num 2), false, true⟩ ∧
     execute lc0 storeLee
        ⟨[⟨"createdAt", .obj [("gte", .num 1), ("lt", .num 2)]⟩], none, none, none⟩ =
      execute lc0 storeLee
        ⟨[⟨"createdAt", .obj [("between", .arr [.num 1, .num 2]),
           ("lowerOpen", .bool false), ("upperOpen", .bool true)]⟩], none, none, none⟩) :=
  ⟨rfl, rfl, by decide,
   c6_range_forms_equivalent lc0 storeLee "createdAt" (.num 1) (.num 2) rfl rfl (by decide)⟩

/-- C8: an equality or range predicate on a field with no secondary index
fails the whole query with the missing-index error (`store.index(name)`
throws `NotFoundError`, the spec's `MissingIndex`) and issues no store read
at all — in particular the evaluator never falls back to a full-table scan;
pattern operands are the sole exception and are excluded by hypothesis. -/
theorem c8_missing_index (lc : String → String → Int) (store : Store)
    (f : String) (v : JSValue) (off lim : Option Nat) (sc : Option SortCfg)
    (hf : store.indexes.contains f = false)
    (hp : isPatternDescriptor v = false) :
    executeR lc store ⟨[⟨f, v⟩], off, lim, sc⟩ = ([], .error .notFoundError) := by
  have hf' : ¬ f ∈ store.indexes := by
    simpa using hf
  simp [executeR, runFiltersR, resolveFilterR, hf', hp]

/-- C8 witness: a literal operand on the unindexed field "age". -/
theorem c8_missing_index_witness :
    storeKim.indexes.contains "age" = false ∧
    isPatternDescriptor (.str "x") = false ∧
    executeR lc0 storeKim ⟨[⟨"age", .str "x"⟩], none, none, none⟩ =
      ([], .error .notFoundError) :=
  ⟨rfl, rfl, c8_missing_index lc0 storeKim "age" (.str "x") none none none rfl rfl⟩

/-! Key-order helper lemmas. -/

lemma cmpChar_eq_iff (a b : Char) : cmpChar a b = .eq ↔ a = b := by
  rcases lt_trichotomy a b with h | h | h
  · simp [cmpChar, h, h.ne]
  · simp [cmpChar, h]
  · simp [cmpChar, lt_asymm h, h, h.ne']

lemma cmpChar_swap (a b : Char) : cmpChar a b = (cmpChar b a).swap := by
  rcases lt_trichotomy a b with h | h | h
  · simp [cmpChar, h, lt_asymm h, Ordering.swap]
  · simp [cmpChar, h, Ordering.swap]
  · simp [cmpChar, lt_asymm h, h, Ordering.swap]

lemma cmpCharList_eq_iff : ∀ xs ys : List Char, cmpCharList xs ys = .eq ↔ xs = ys := by
  intro xs
  induction xs with
  | nil => intro ys; cases ys <;> simp [cmpCharList]
  | cons x xs ih =>
    intro ys
    cases ys with
    | nil => simp [cmpCharList]
    | cons y ys =>
      simp only [cmpCharList]
      cases h : cmpChar x y with
      | lt =>
        have hxy : ¬ x = y := fun he => by
          rw [(cmpChar_eq_iff x y).mpr he] at h
          exact Ordering.noConfusion h
        simp [hxy]
      | eq => simp [(cmpChar_eq_iff x y).mp h, ih]
      | gt =>
        have hxy : ¬ x = y := fun he => by
          rw [(cmpChar_eq_iff x y).mpr he] at h
          exact Ordering.noConfusion h
        simp [hxy]

lemma cmpCharList_swap : ∀ xs ys : List Char,
    cmpCharList xs ys = (cmpCharList ys xs).swap := by
  intro xs
  induction xs with
  | nil => intro ys; cases ys <;> simp [cmpCharList, Ordering.swap]
  | cons x xs ih =>
    intro ys
    cases ys with
    | nil => simp [cmpCharList, Ordering.swap]
    | cons y ys =>
      simp only [cmpCharList, cmpChar_swap x y]
      cases cmpChar y x <;> simp [Ordering.swap, ih]

lemma cmpStr_eq_iff (s t : String) : cmpStr s t = .eq ↔ s = t := by
  unfold cmpStr
  rw [cmpCharList_eq_iff]
  constructor
  · intro h
    cases s
    cases t
    exact congrArg String.mk h
  · intro h
    rw [h]

lemma cmpStr_swap (s t : String) : cmpStr s t = (cmpStr t s).swap :=
  cmpCharList_swap s.data t.data

/-- For valid keys, membership in the degenerate equality range is exactly
key equality under the IndexedDB comparison. -/
lemma inRange_only_iff (v k : JSValue) (hv : validKey v = true)
    (hk : validKey k = true) :
    inRange (onlyRange v) k = true ↔ idbCompare k v = .eq := by
  cases v with
  | num n =>
    cases k with
    | num m =>
      rcases lt_trichotomy n m with h | h | h
      · have e1 : cmpInt n m = .lt := by simp [cmpInt, h]
        have e2 : cmpInt m n = .gt := by simp [cmpInt, lt_asymm h, h]
        simp [inRange, onlyRange, idbCompare, e1, e2]
      · have e1 : cmpInt n m = .eq := by simp [cmpInt, h]
        have e2 : cmpInt m n = .eq := by simp [cmpInt, h]
        simp [inRange, onlyRange, idbCompare, e1, e2]
      · have e1 : cmpInt n m = .gt := by simp [cmpInt, lt_asymm h, h]
        have e2 : cmpInt m n = .lt := by simp [cmpInt, h]
        simp [inRange, onlyRange, idbCompare, e1, e2]
    | str t => simp [inRange, onlyRange, idbCompare]
    | null => simp [validKey] at hk
    | undefined => simp [validKey] at hk
    | bool x => simp [validKey] at hk
    | arr xs => simp [validKey] at hk
    | obj fs => simp [validKey] at hk
  | str s =>
    cases k with
    | num m => simp [inRange, onlyRange, idbCompare]
    | str t =>
      have hsw : cmpStr s t = (cmpStr t s).swap := cmpStr_swap s t
      cases h : cmpStr t s with
      | lt => simp [inRange, onlyRange, idbCompare, hsw, h, Ordering.swap]
      | eq => simp [inRange, onlyRange, idbCompare, hsw, h, Ordering.swap]
      | gt => simp [inRange, onlyRange, idbCompare, hsw, h, Ordering.swap]
    | null => simp [validKey] at hk
    | undefined => simp [validKey] at hk
    | bool x => simp [validKey] at hk
    | arr xs => simp [validKey] at hk
    | obj fs => simp [validKey] at hk
  | null => simp [validKey] at hv
  | undefined => simp [validKey] at hv
  | bool x => simp [validKey] at hv
  | arr xs => simp [validKey] at hv
  | obj fs => simp [validKey] at hv

lemma mem_insertByKey (f : String) (r x : JSValue) :
    ∀ l : List JSValue, x ∈ insertByKey f r l ↔ x = r ∨ x ∈ l := by
  intro l
  induction l with
  | nil => simp [insertByKey]
  | cons y ys ih =>
    simp only [insertByKey]
    split
    · simp only [List.mem_cons, ih]
      tauto
    · simp [List.mem_cons]

lemma mem_sortByKey (f : String) (x : JSValue) :
    ∀ l : List JSValue, x ∈ sortByKey f l ↔ x ∈ l := by
  intro l
  induction l with
  | nil => simp [sortByKey]
  | cons y ys ih => simp [sortByKey, mem_insertByKey, ih]

/-- C9 counterexample: the operand `null` is dispatched to the literal
branch (`isRangeDescriptor null = false`), but `index.getAll(null)` performs
an unbounded scan rather than an equality lookup — over a store whose only
record is named "x", the query `where("name", null)` returns that record
although its field does not equal the operand. -/
theorem c9_counterexample :
    isRangeDescriptor .null = false ∧
    execute lc0 storeX ⟨[⟨"name", .null⟩], none, none, none⟩ = .ok [userX] ∧
    getProp userX "name" ≠ .null :=
  ⟨rfl, rfl, fun h => JSValue.noConfusion h⟩

/-- C9 amended: the range-scan dispatch test is exactly the claimed shape
(non-null object with an array `between` or a defined `gte`/`gt`/`lte`/`lt`),
and every other non-pattern operand is handed untranslated to the index —
a valid key acts as a literal equality lookup (a record is returned iff its
field is a valid key equal to the operand), while `null` (like `undefined`)
yields an unbounded scan returning every indexed record. -/
theorem c9_amended :
    (∀ v, isRangeDescriptor v = rangeShapeSpec v) ∧
    (∀ (store : Store) (f : String) (v : JSValue),
      store.indexes.contains f = true →
      isPatternDescriptor v = false →
      isRangeDescriptor v = false →
      validKey v = true →
      resolveFilter store ⟨f, v⟩ = .ok (indexScanRange store f (onlyRange v)) ∧
      ∀ r, r ∈ indexScanRange store f (onlyRange v) ↔
        (r ∈ store.table ∧ validKey (getProp r f) = true ∧
         idbCompare (getProp r f) v = .eq)) ∧
    (∀ (store : Store) (f : String),
      store.indexes.contains f = true →
      resolveFilter store ⟨f, .null⟩ = .ok (indexScanRange store f unboundedRange) ∧
      ∀ r, r ∈ indexScanRange store f unboundedRange ↔
        (r ∈ store.table ∧ validKey (getProp r f) = true)) := by
  refine ⟨?_, ?_, ?_⟩
  · intro v
    cases v <;> rfl
  · intro store f v hf hp hr hv
    have hf' : f ∈ store.indexes := by simpa using hf
    have hnn : isNullish v = false := by
      cases v <;> simp_all [validKey, isNullish]
    constructor
    · simp [resolveFilter, resolveFilterR, hp, hf', hr, hnn, hv]
    · intro r
      simp only [indexScanRange, mem_sortByKey, List.mem_filter,
        Bool.and_eq_true]
      constructor
      · rintro ⟨h1, h2, h3⟩
        exact ⟨h1, h2, (inRange_only_iff v (getProp r f) hv h2).mp h3⟩
      · rintro ⟨h1, h2, h3⟩
        exact ⟨h1, h2, (inRange_only_iff v (getProp r f) hv h2).mpr h3⟩
  · intro store f hf
    have hf' : f ∈ store.indexes := by simpa using hf
    constructor
    · simp [resolveFilter, resolveFilterR, hf', isPatternDescriptor,
        isRangeDescriptor, isNull, isNullish]
    · intro r
      simp [indexScanRange, mem_sortByKey, List.mem_filter, inRange,
        unboundedRange]

/-- C9 amended, witness: the literal lookup of "x" on the indexed name
field of the one-record store. -/
theorem c9_amended_witness :
    storeX.indexes.contains "name" = true ∧
    isPatternDescriptor (.str "x") = false ∧
    isRangeDescriptor (.str "x") = false ∧
    validKey (.str "x") = true ∧
    (resolveFilter storeX ⟨"name", .str "x"⟩ =
        .ok (indexScanRange storeX "name" (onlyRange (.str "x"))) ∧
     ∀ r, r ∈ indexScanRange storeX "name" (onlyRange (.str "x")) ↔
        (r ∈ storeX.table ∧ validKey (getProp r "name") = true ∧
         idbCompare (getProp r "name") (.str "x") = .eq)) :=
  ⟨rfl, rfl, rfl, rfl,
   c9_amended.2.1 storeX "name" (.str "x") rfl rfl rfl rfl⟩

lemma exists_ok_of_isOk {α : Type} {r : Except JsErr α} (h : isOk r = true) :
    ∃ a, r = .ok a := by
  cases r with
  | ok a => exact ⟨a, rfl⟩
  | error e => simp [isOk] at h

/-- The filter loop keeps the accumulator a sublist of `l1` as long as every
filter resolves, provided the accumulator never enters a step empty (the
re-seeding branch stays dead after the first filter). -/
lemma runFiltersR_sublist (store : Store) (kp : String) :
    ∀ (fs : List Filter) (acc l1 : List JSValue),
      acc.Sublist l1 →
      fs.all (fun g => isOk (resolveFilter store g)) = true →
      noReseed store kp fs acc = true →
      ∃ res, (runFiltersR store kp fs acc).2 = .ok res ∧ res.Sublist l1 := by
  intro fs
  induction fs with
  | nil =>
    intro acc l1 hsub _ _
    exact ⟨acc, rfl, hsub⟩
  | cons g gs ih =>
    intro acc l1 hsub hall hnr
    simp only [List.all_cons, Bool.and_eq_true] at hall
    obtain ⟨hg, hgs⟩ := hall
    obtain ⟨l, hl⟩ := exists_ok_of_isOk hg
    have hl' : (resolveFilterR store g).2 = .ok l := hl
    have hpair : resolveFilterR store g = ((resolveFilterR store g).1, .ok l) := by
      rw [← hl']
    simp only [noReseed, hl, Bool.and_eq_true, Bool.not_eq_true'] at hnr
    obtain ⟨hne, hnr2⟩ := hnr
    have hlen : ¬(acc.length = 0) := by
      simp only [List.length_eq_zero]
      intro he
      rw [he] at hne
      simp at hne
    simp only [runFiltersR]
    rw [hpair]
    have hstep : (intersectStep kp acc l).Sublist l1 := by
      refine List.Sublist.trans ?_ hsub
      simp only [intersectStep]
      exact List.filter_sublist acc
    obtain ⟨res, hres, hsub'⟩ :=
      ih (intersectStep kp acc l) l1 hstep hgs hnr2
    refine ⟨res, ?_, hsub'⟩
    simp only [if_neg hlen]
    exact hres

/-- C10 counterexample: three predicates, each with a non-empty candidate
set — Lee-by-name gives record A, active-by-status gives record B (twice).
The intersection of A with B empties the accumulator, so the third predicate
RE-SEEDS it and the query returns B, a record that is not in the first
predicate's candidate sequence (its primary key differs), contradicting
"subsequent predicates only remove records, never reorder or add them". -/
theorem c10_counterexample :
    resolveFilter store10 ⟨"name", .str "Lee"⟩ = .ok [userA10] ∧
    resolveFilter store10 ⟨"status", .str "active"⟩ = .ok [userB10] ∧
    execute lc0 store10
        ⟨[⟨"name", .str "Lee"⟩, ⟨"status", .str "active"⟩,
          ⟨"status", .str "active"⟩], none, none, none⟩ = .ok [userB10] ∧
    getProp userB10 "id" ≠ getProp userA10 "id" :=
  ⟨rfl, rfl, rfl, fun h => absurd (JSValue.str.inj h) (by decide)⟩

/-- C10 amended: when no sort key is set, no pagination is applied, every
predicate resolves, and additionally the running intersection never becomes
empty while later predicates remain (otherwise the `results.length === 0`
branch re-seeds the accumulator from that predicate), the sequence returned
by execute is a sublist of the first predicate's candidate sequence —
subsequent predicates only remove records, never reorder or add them. -/
theorem c10_amended (lc : String → String → Int) (store : Store)
    (flt : Filter) (rest : List Filter) (l1 : List JSValue)
    (h1 : resolveFilter store flt = .ok l1)
    (h2 : rest.all (fun g => isOk (resolveFilter store g)) = true)
    (h3 : noReseed store store.keyPath rest l1 = true) :
    ∃ res, execute lc store ⟨flt :: rest, none, none, none⟩ = .ok res ∧
      res.Sublist l1 := by
  have h1' : (resolveFilterR store flt).2 = .ok l1 := h1
  have hpair : resolveFilterR store flt = ((resolveFilterR store flt).1, .ok l1) := by
    rw [← h1']
  obtain ⟨res, hres, hsub⟩ :=
    runFiltersR_sublist store store.keyPath rest l1 l1 (List.Sublist.refl l1) h2 h3
  refine ⟨res, ?_, hsub⟩
  have hlen : ¬((flt :: rest).length = 0) := by simp
  simp only [execute, executeR]
  rw [if_neg hlen]
  simp only [runFiltersR]
  rw [hpair]
  dsimp only
  have hres' : (runFiltersR store store.keyPath rest
      (if ([] : List JSValue).length = 0 then l1
       else intersectStep store.keyPath [] l1)).2 = .ok res := hres
  rw [hres']
  simp [applyPagination, truthyNat]

/-- C10 amended, witness: two predicates over the two-record store whose
intersection stays non-empty long enough (it is empty only at the very
end, which the condition permits). -/
theorem c10_amended_witness :
    resolveFilter store10 ⟨"name", .str "Lee"⟩ = .ok [userA10] ∧
    [(⟨"status", .str "active"⟩ : Filter)].all
        (fun g => isOk (resolveFilter store10 g)) = true ∧
    noReseed store10 store10.keyPath [⟨"status", .str "active"⟩] [userA10] = true ∧
    (∃ res, execute lc0 store10
        ⟨[⟨"name", .str "Lee"⟩, ⟨"status", .str "active"⟩], none, none, none⟩ =
          .ok res ∧ res.Sublist [userA10]) :=
  ⟨rfl, rfl, rfl,
   c10_amended lc0 store10 ⟨"name", .str "Lee"⟩ [⟨"status", .str "active"⟩]
     [userA10] rfl rfl rfl⟩

end Idxdb
